import Mathlib

/-!
Shallow embedding of `CalculatingRoadimpact.py` (the reference-matching and
background-estimation engine of the RoadImpactsForests repository).

Modelling conventions:
* All numeric values are exact rationals `ℚ`.  A cell that is missing
  (`NaN`/`None` in the source) is `none : Option ℚ`; the numeric sentinel
  `-9999` from `INVALID_VALUES` stays inside `some`.
* Euclidean distances are represented by their squares, which keeps every
  quantity rational: `d < THRESHOLD_DISTANCE` iff `d^2 < THRESHOLD_DISTANCE^2`
  (both sides nonnegative), the minimum distance corresponds to the minimum
  squared distance, and the IDW weight `1/d^IDW_POWER = 1/d^2` equals
  `1/(d^2)^1`, so the pipeline invokes the aggregator on squared distances
  with exponent `1`.
* `np.argsort` followed by positional indexing is modelled as a stable
  sort of the filtered rows by the composite-index difference.  numpy's
  default `kind='quicksort'` only guarantees a sorting permutation; the
  stable tie order is a modelling choice recorded here (see the discussion
  of the ranking claims).
-/

namespace RoadImpact

/-- `THRESHOLD_DISTANCE = 50000` (meters), from the constants block. -/
def THRESHOLD_DISTANCE : ℚ := 50000

/-- `TOP_PERCENTILE = 0.2`, from the constants block. -/
def TOP_PERCENTILE : ℚ := 1 / 5

/-- `MIN_REF_POINTS = 3`, from the constants block. -/
def MIN_REF_POINTS : ℕ := 3

/-- `IDW_POWER = 2.0`, from the constants block. -/
def IDW_POWER : ℕ := 2

/-- The numeric sentinel in `INVALID_VALUES = [-9999, np.nan, None]`;
`np.nan` and `None` are modelled by `none : Option ℚ`. -/
def INVALID_SENTINEL : ℚ := -9999

/-- The eight target metric columns of `target_columns`. -/
inductive Metric
  | area2000 | area2020 | h2000 | h2020 | pd2000 | pd2020 | npp2000 | npp2020

/-- The four base variables of `trend_vars = ["Area", "H", "PD", "NPP"]`. -/
inductive BaseVar
  | area | h | pd | npp

/-- Year-2000 metric column of a base variable (`f"{base_var}2000_AC"`). -/
def BaseVar.metric2000 : BaseVar → Metric
  | .area => .area2000
  | .h => .h2000
  | .pd => .pd2000
  | .npp => .npp2000

/-- Year-2020 metric column of a base variable (`f"{base_var}2020_AC"`). -/
def BaseVar.metric2020 : BaseVar → Metric
  | .area => .area2020
  | .h => .h2020
  | .pd => .pd2020
  | .npp => .npp2020

/-- One row of the merged table (`pd.merge(pca_df, indicators_df, on='pointID')`). -/
structure Row where
  pointID : ℚ
  X : ℚ
  Y : ℚ
  CEI : ℚ
  Windowflag : ℚ
  Buffer_type : ℚ
  NTL2000 : ℚ
  NTL2020 : ℚ
  ForestChange : ℚ
  Plantations : ℚ
  metrics : Metric → Option ℚ

/-- `is_valid_value`: a value is valid when it is present (not `NaN`/`None`)
and differs from the `-9999` sentinel. -/
def is_valid_value : Option ℚ → Bool
  | none => false
  | some v => decide (v ≠ INVALID_SENTINEL)

/-- One IDW weight: `1.0 / d ** power`, with the infinite weight produced at
`d = 0` forced to zero (`weights[np.isinf(weights)] = 0`).  In floats,
`1/x` is infinite exactly when `x = 0`. -/
def idwWeight (power : ℕ) (d : ℚ) : ℚ :=
  if d ^ power = 0 then 0 else 1 / d ^ power

/-- `inverse_distance_weighting(values, distances, power)`: drop invalid
values (and their distances), return `NaN` (`none`) if nothing is left,
otherwise the inverse-distance weighted average, falling back to the
unweighted mean when the total weight is not positive. -/
def inverse_distance_weighting (values : List (Option ℚ)) (distances : List ℚ)
    (power : ℕ) : Option ℚ :=
  let pairs := (values.zip distances).filter fun q => is_valid_value q.1
  if pairs.isEmpty then none
  else
    let total := (pairs.map fun q => idwWeight power q.2).sum
    if 0 < total then
      some ((pairs.map fun q => q.1.getD 0 * idwWeight power q.2).sum / total)
    else
      some ((pairs.map fun q => q.1.getD 0).sum / (pairs.length : ℚ))

/-- Body of the per-metric AC/RC computation in `process_forest_metrics`
(lines 186-195): absolute change and symmetric relative change of a
treatment value against its background estimate. -/
def impactScores (road bg : Option ℚ) : Option ℚ × Option ℚ :=
  if is_valid_value road && is_valid_value bg then
    let r := road.getD 0
    let b := bg.getD 0
    (some (r - b),
      if |b| + |r| ≠ 0 then some ((r - b) / (|b| + |r|) * 100) else none)
  else (none, none)

/-- Loop body of `calculate_temporal_trends` for one base variable:
trend of the two AC values (2020 minus 2000) and its symmetric percentage. -/
def temporal_trend (ac2000 ac2020 : Option ℚ) : Option ℚ × Option ℚ :=
  if is_valid_value ac2020 && is_valid_value ac2000 then
    let a0 := ac2000.getD 0
    let a2 := ac2020.getD 0
    (some (a2 - a0),
      if 0 < |a0| + |a2| then some ((a2 - a0) / (|a0| + |a2|) * 100) else none)
  else (none, none)

/-- Squared Euclidean distance between a treatment row and a candidate
(`(table2_coords[:,0] - row['X'])**2 + (table2_coords[:,1] - row['Y'])**2`,
kept squared so that it stays rational). -/
def sqDist (row c : Row) : ℚ :=
  (c.X - row.X) ^ 2 + (c.Y - row.Y) ^ 2

/-- Strict distance filter `distances < THRESHOLD_DISTANCE`, expressed on
squared distances (both sides nonnegative, squaring is monotone). -/
def inRange (row c : Row) : Bool :=
  decide (sqDist row c < THRESHOLD_DISTANCE ^ 2)

/-- The kept candidates of one treatment point
(`filtered_table2`, in original pool order, as `np.where(valid_mask)[0]`
yields ascending indices). -/
def keptCandidates (table2 : List Row) (row : Row) : List Row :=
  table2.filter (inRange row)

/-- Stable insertion of a row into a list sorted by `key` ascending. -/
def insertByKey (key : Row → ℚ) (a : Row) : List Row → List Row
  | [] => [a]
  | b :: l => if key a ≤ key b then a :: b :: l else b :: insertByKey key a l

/-- Stable insertion sort by `key` ascending; models
`np.argsort(filtered_cindex_diffs)` followed by positional indexing of the
filtered rows (tie order: original order; see the modelling note above). -/
def sortByKey (key : Row → ℚ) : List Row → List Row
  | [] => []
  | a :: l => insertByKey key a (sortByKey key l)

/-- Ranking of the kept candidates by ascending composite-index difference
(`np.abs(table2_cindex - row['CEI'])`, restricted to the kept rows). -/
def cindexRank (row : Row) (filtered : List Row) : List Row :=
  sortByKey (fun c => |c.CEI - row.CEI|) filtered

/-- `n_top = max(MIN_REF_POINTS, int(len(filtered_table2) * TOP_PERCENTILE))`.
Python's `int` truncates toward zero and the argument is nonnegative, hence
the floor; for every realistic count (`< 2^53`) the float product
`n * 0.2` floors to the same integer as the exact product. -/
def nTop (n : ℕ) : ℕ :=
  max MIN_REF_POINTS (Int.toNat ⌊(n : ℚ) * TOP_PERCENTILE⌋)

/-- `top_records`: the first `n_top` ranked kept candidates. -/
def referenceSubset (table2 : List Row) (row : Row) : List Row :=
  (cindexRank row (keptCandidates table2 row)).take
    (nTop (keptCandidates table2 row).length)

/-- One output row (`result_row`); `Nearest_Ref_DistanceSq` is the square of
the reported `Nearest_Ref_Distance` (same minimizer, squaring is monotone
on nonnegative distances). -/
structure ResultRow where
  pointID : ℚ
  X : ℚ
  Y : ℚ
  Buffer_type : ℚ
  CEI_Diff : Option ℚ
  Nearest_Ref_DistanceSq : ℚ
  Ref_Points_Used : ℕ
  road : Metric → Option ℚ
  ref : Metric → Option ℚ
  AC : Metric → Option ℚ
  RC : Metric → Option ℚ
  AC_trend : BaseVar → Option ℚ
  RC_trend : BaseVar → Option ℚ

/-- Outcome of processing one treatment row: a result row or a skip record. -/
inductive Outcome
  | result (res : ResultRow)
  | skipped (pointID : ℚ) (reason : String)

/-- `true` exactly on the `result` outcome. -/
def Outcome.isResult : Outcome → Bool
  | .result _ => true
  | .skipped _ _ => false

/-- Projection of the `Ref_Points_Used` column of a result outcome. -/
def outcomeRefCount : Outcome → Option ℕ
  | .result res => some res.Ref_Points_Used
  | .skipped _ _ => none

/-- Projection of the (squared) `Nearest_Ref_Distance` column. -/
def outcomeNearestSq : Outcome → Option ℚ
  | .result res => some res.Nearest_Ref_DistanceSq
  | .skipped _ _ => none

/-- Loop body of `process_forest_metrics` for one treatment row: filter the
pool by the strict distance threshold, skip when fewer than `MIN_REF_POINTS`
remain, otherwise rank, truncate, aggregate backgrounds by IDW (squared
distances with exponent `1`, since `1/d^IDW_POWER = 1/(d^2)^1`), and score. -/
def processPoint (table2 : List Row) (row : Row) : Outcome :=
  let filtered := keptCandidates table2 row
  if filtered.length < MIN_REF_POINTS then
    .skipped row.pointID "Not enough reference points"
  else
    let top := referenceSubset table2 row
    let topSqDists := top.map (sqDist row)
    let bg_cindex := inverse_distance_weighting (top.map fun c => some c.CEI) topSqDists 1
    let refv : Metric → Option ℚ := fun m =>
      inverse_distance_weighting (top.map fun c => c.metrics m) topSqDists 1
    let ac : Metric → Option ℚ := fun m => (impactScores (row.metrics m) (refv m)).1
    let rc : Metric → Option ℚ := fun m => (impactScores (row.metrics m) (refv m)).2
    .result
      { pointID := row.pointID
        X := row.X
        Y := row.Y
        Buffer_type := row.Buffer_type
        CEI_Diff := match bg_cindex with
          | some b => some (row.CEI - b)
          | none => none
        Nearest_Ref_DistanceSq := ((filtered.map (sqDist row)).min?).getD 0
        Ref_Points_Used := top.length
        road := fun m => row.metrics m
        ref := refv
        AC := ac
        RC := rc
        AC_trend := fun v => (temporal_trend (ac v.metric2000) (ac v.metric2020)).1
        RC_trend := fun v => (temporal_trend (ac v.metric2000) (ac v.metric2020)).2 }

/-- Treatment-set membership: `(Windowflag == 1) & (Buffer_type > 1)`. -/
def isTreatment (r : Row) : Bool :=
  decide (r.Windowflag = 1) && decide (1 < r.Buffer_type)

/-- Candidate-pool membership: `(Buffer_type <= 1) & (NTL2000 < 1)
& (NTL2020 < 1) & (abs(ForestChange) < 10) & (abs(Plantations) < 10)`. -/
def isCandidate (r : Row) : Bool :=
  decide (r.Buffer_type ≤ 1) && decide (r.NTL2000 < 1) && decide (r.NTL2020 < 1) &&
    decide (|r.ForestChange| < 10) && decide (|r.Plantations| < 10)

/-- The accumulated `result_rows`, in treatment-set order. -/
def batchResults (table2 table1 : List Row) : List ResultRow :=
  table1.filterMap fun r =>
    match processPoint table2 r with
    | .result res => some res
    | .skipped _ _ => none

/-- The accumulated `skipped_rows` (`pointID`, reason), in treatment-set order. -/
def batchSkipped (table2 table1 : List Row) : List (ℚ × String) :=
  table1.filterMap fun r =>
    match processPoint table2 r with
    | .skipped p s => some (p, s)
    | .result _ => none

/-- The whole batch: both output collections. -/
def runBatch (table2 table1 : List Row) : List ResultRow × List (ℚ × String) :=
  (batchResults table2 table1, batchSkipped table2 table1)

/-- `process_forest_metrics` on the merged table: classify rows into the
treatment set and the candidate pool, abort (`none`) when either is empty,
otherwise run the batch. -/
def process_forest_metrics (merged : List Row) :
    Option (List ResultRow × List (ℚ × String)) :=
  let table1 := merged.filter isTreatment
  let table2 := merged.filter isCandidate
  if table1.isEmpty || table2.isEmpty then none
  else some (runBatch table2 table1)

/-! ### Helper lemmas -/

lemma length_insertByKey (key : Row → ℚ) (a : Row) (l : List Row) :
    (insertByKey key a l).length = l.length + 1 := by
  induction l with
  | nil => rfl
  | cons b t ih =>
    simp only [insertByKey]
    split
    · simp
    · simp [ih]

lemma length_sortByKey (key : Row → ℚ) (l : List Row) :
    (sortByKey key l).length = l.length := by
  induction l with
  | nil => rfl
  | cons a t ih => simp [sortByKey, length_insertByKey, ih]

lemma nTop_le {n : ℕ} (h : MIN_REF_POINTS ≤ n) : nTop n ≤ n := by
  unfold nTop
  apply max_le h
  have h1 : (n : ℚ) * TOP_PERCENTILE ≤ (n : ℚ) := by
    apply mul_le_of_le_one_right (Nat.cast_nonneg n)
    norm_num [TOP_PERCENTILE]
  have h2 : ⌊(n : ℚ) * TOP_PERCENTILE⌋ ≤ (n : ℤ) := by
    calc ⌊(n : ℚ) * TOP_PERCENTILE⌋ ≤ ⌊(n : ℚ)⌋ := Int.floor_mono h1
      _ = (n : ℤ) := Int.floor_natCast n
  exact Int.toNat_le.mpr h2

lemma length_referenceSubset (table2 : List Row) (row : Row)
    (h : MIN_REF_POINTS ≤ (keptCandidates table2 row).length) :
    (referenceSubset table2 row).length = nTop (keptCandidates table2 row).length := by
  unfold referenceSubset cindexRank
  rw [List.length_take, length_sortByKey]
  exact min_eq_left (nTop_le h)

lemma processPoint_skip {table2 : List Row} {row : Row}
    (h : (keptCandidates table2 row).length < MIN_REF_POINTS) :
    processPoint table2 row = .skipped row.pointID "Not enough reference points" := by
  unfold processPoint
  rw [if_pos h]

lemma processPoint_result {table2 : List Row} {row : Row}
    (h : ¬ (keptCandidates table2 row).length < MIN_REF_POINTS) :
    ∃ res, processPoint table2 row = .result res := by
  unfold processPoint
  rw [if_neg h]
  exact ⟨_, rfl⟩

lemma isResult_iff (table2 : List Row) (row : Row) :
    (processPoint table2 row).isResult = true ↔
      MIN_REF_POINTS ≤ (keptCandidates table2 row).length := by
  constructor
  · intro h
    by_contra hc
    rw [processPoint_skip (Nat.lt_of_not_le hc)] at h
    simp [Outcome.isResult] at h
  · intro h
    obtain ⟨res, hres⟩ := processPoint_result (Nat.not_lt.mpr h)
    rw [hres]
    rfl

lemma refCount_of_result {table2 : List Row} {row : Row}
    (h : ¬ (keptCandidates table2 row).length < MIN_REF_POINTS) :
    outcomeRefCount (processPoint table2 row) =
      some (referenceSubset table2 row).length := by
  unfold processPoint
  rw [if_neg h]
  rfl

lemma nearestSq_of_result {table2 : List Row} {row : Row}
    (h : ¬ (keptCandidates table2 row).length < MIN_REF_POINTS) :
    outcomeNearestSq (processPoint table2 row) =
      some ((((keptCandidates table2 row).map (sqDist row)).min?).getD 0) := by
  unfold processPoint
  rw [if_neg h]
  rfl

/-! ### Example data used by witnesses -/

/-- Metric table whose cells are all present and equal to `1`. -/
def exMetrics : Metric → Option ℚ := fun _ => some 1

/-- A candidate-pool row at `(x, y)` with composite index `cei`. -/
def mkCand (x y cei : ℚ) : Row :=
  { pointID := 0, X := x, Y := y, CEI := cei, Windowflag := 0, Buffer_type := 0,
    NTL2000 := 0, NTL2020 := 0, ForestChange := 0, Plantations := 0,
    metrics := exMetrics }

/-- A treatment row at the origin with composite index `0`. -/
def exRow : Row :=
  { pointID := 7, X := 0, Y := 0, CEI := 0, Windowflag := 1, Buffer_type := 2,
    NTL2000 := 0, NTL2020 := 0, ForestChange := 0, Plantations := 0,
    metrics := fun _ => some 10 }

/-- Five in-range candidates; the nearest one (`100` m away) has the largest
composite-index difference and is therefore excluded from the subset. -/
def exPool : List Row :=
  [mkCand 100 0 100, mkCand 200 0 1, mkCand 300 0 2, mkCand 400 0 3, mkCand 500 0 4]

lemma keptCandidates_exPool : keptCandidates exPool exRow = exPool := by
  norm_num [keptCandidates, exPool, inRange, sqDist, mkCand, exRow,
    THRESHOLD_DISTANCE, List.filter_cons]

lemma exPool_isResult : (processPoint exPool exRow).isResult = true :=
  (isResult_iff exPool exRow).mpr (by rw [keptCandidates_exPool]; decide)

/-! ### Claim theorems -/

/-- C1: for every treatment point that is not skipped, the reference subset
has size exactly `max(MIN_REF_POINTS, ⌊filtered_count * TOP_PERCENTILE⌋)`,
where `filtered_count` counts the candidates strictly within the distance
threshold, and hence its size is always at least `MIN_REF_POINTS`. -/
theorem reference_subset_size (table2 : List Row) (row : Row)
    (h : (processPoint table2 row).isResult = true) :
    outcomeRefCount (processPoint table2 row) =
      some (max MIN_REF_POINTS
        (Int.toNat ⌊((keptCandidates table2 row).length : ℚ) * TOP_PERCENTILE⌋)) ∧
    ∀ k, outcomeRefCount (processPoint table2 row) = some k → MIN_REF_POINTS ≤ k := by
  have hge := (isResult_iff table2 row).mp h
  have hcount := refCount_of_result (Nat.not_lt.mpr hge)
  rw [length_referenceSubset table2 row hge] at hcount
  refine ⟨hcount, ?_⟩
  intro k hk
  rw [hcount] at hk
  injection hk with hk
  rw [← hk]
  exact le_max_left _ _

theorem reference_subset_size_witness :
    (processPoint exPool exRow).isResult = true ∧
    outcomeRefCount (processPoint exPool exRow) =
      some (max MIN_REF_POINTS
        (Int.toNat ⌊((keptCandidates exPool exRow).length : ℚ) * TOP_PERCENTILE⌋)) :=
  ⟨exPool_isResult, (reference_subset_size exPool exRow exPool_isResult).1⟩

/-- C2: candidates are kept exactly when their distance is strictly below the
threshold; the skip ledger consists precisely of the treatment rows with
fewer than `MIN_REF_POINTS` kept candidates, each recorded with reason
"Not enough reference points" and producing a skip (never a result),
while every other treatment row produces a result (never a skip). -/
theorem skip_policy (table2 table1 : List Row) :
    (∀ r c, c ∈ keptCandidates table2 r ↔
        c ∈ table2 ∧ sqDist r c < THRESHOLD_DISTANCE ^ 2) ∧
    batchSkipped table2 table1 =
      (table1.filter fun r =>
          decide ((keptCandidates table2 r).length < MIN_REF_POINTS)).map
        (fun r => (r.pointID, "Not enough reference points")) ∧
    (∀ r, (keptCandidates table2 r).length < MIN_REF_POINTS →
        processPoint table2 r = .skipped r.pointID "Not enough reference points" ∧
        (processPoint table2 r).isResult = false) ∧
    (∀ r, MIN_REF_POINTS ≤ (keptCandidates table2 r).length →
        (processPoint table2 r).isResult = true) := by
  refine ⟨?_, ?_, ?_, ?_⟩
  · intro r c
    simp [keptCandidates, List.mem_filter, inRange, and_comm]
  · induction table1 with
    | nil => rfl
    | cons r t ih =>
      rw [batchSkipped, List.filterMap_cons, List.filter_cons]
      by_cases h : (keptCandidates table2 r).length < MIN_REF_POINTS
      · rw [processPoint_skip h]
        simpa [h] using ih
      · obtain ⟨res, hres⟩ := processPoint_result h
        rw [hres]
        simpa [h] using ih
  · intro r h
    refine ⟨processPoint_skip h, ?_⟩
    rw [processPoint_skip h]
    rfl
  · intro r h
    exact (isResult_iff table2 r).mpr h

theorem skip_policy_witness :
    ((keptCandidates [] exRow).length < MIN_REF_POINTS) ∧
    processPoint [] exRow = .skipped exRow.pointID "Not enough reference points" ∧
    (MIN_REF_POINTS ≤ (keptCandidates exPool exRow).length ∧
      (processPoint exPool exRow).isResult = true) :=
  ⟨by decide, ((skip_policy [] [exRow]).2.2.1 exRow (by decide)).1,
    by rw [keptCandidates_exPool]; decide,
    (skip_policy exPool [exRow]).2.2.2 exRow (by rw [keptCandidates_exPool]; decide)⟩

/-- C4: in the inverse-distance aggregator, every valid entry gets weight
`1 / distance ^ exponent`; a zero-distance entry (whose float weight would be
infinite) gets weight exactly `0`; when the total weight over valid entries
is zero the result is the unweighted arithmetic mean of the valid values,
otherwise it is the weighted average; and no weight is negative (or
infinite — every rational weight is finite). -/
theorem idw_weighting_spec (values : List (Option ℚ)) (distances : List ℚ)
    (p : ℕ) (hp : 0 < p) (hd : ∀ d ∈ distances, 0 ≤ d) :
    (∀ d ∈ distances, 0 ≤ idwWeight p d) ∧
    (∀ d ∈ distances, d ≠ 0 → idwWeight p d = 1 / d ^ p) ∧
    idwWeight p 0 = 0 ∧
    ∀ pairs, pairs = (values.zip distances).filter (fun q => is_valid_value q.1) →
      pairs ≠ [] →
      ((pairs.map fun q => idwWeight p q.2).sum = 0 →
          inverse_distance_weighting values distances p =
            some ((pairs.map fun q => q.1.getD 0).sum / (pairs.length : ℚ))) ∧
      ((pairs.map fun q => idwWeight p q.2).sum ≠ 0 →
          inverse_distance_weighting values distances p =
            some ((pairs.map fun q => q.1.getD 0 * idwWeight p q.2).sum /
                  (pairs.map fun q => idwWeight p q.2).sum)) := by
  have wnonneg : ∀ d : ℚ, 0 ≤ d → 0 ≤ idwWeight p d := by
    intro d hd0
    unfold idwWeight
    split
    · exact le_refl 0
    · positivity
  refine ⟨fun d hdm => wnonneg d (hd d hdm), ?_, ?_, ?_⟩
  · intro d _ hdz
    unfold idwWeight
    rw [if_neg (pow_ne_zero p hdz)]
  · unfold idwWeight
    rw [if_pos (zero_pow hp.ne')]
  · intro pairs hpairs hne
    have hsum : 0 ≤ (pairs.map fun q => idwWeight p q.2).sum := by
      apply List.sum_nonneg
      intro w hw
      obtain ⟨q, hq, rfl⟩ := List.mem_map.mp hw
      have hqz : q ∈ values.zip distances := (List.mem_filter.mp (hpairs ▸ hq)).1
      have hq2 : q.2 ∈ distances := by
        obtain ⟨q1, q2⟩ := q
        exact (List.of_mem_zip hqz).2
      exact wnonneg q.2 (hd q.2 hq2)
    have hme : ((values.zip distances).filter fun q => is_valid_value q.1) = pairs :=
      hpairs.symm
    have hempty : pairs.isEmpty = false := by
      simp [List.isEmpty_iff, hne]
    constructor
    · intro h0
      simp only [inverse_distance_weighting, hme, hempty, Bool.false_eq_true,
        if_false, h0]
      rw [if_neg (lt_irrefl 0)]
    · intro hne0
      have hpos : 0 < (pairs.map fun q => idwWeight p q.2).sum :=
        lt_of_le_of_ne hsum (Ne.symm hne0)
      simp only [inverse_distance_weighting, hme, hempty, Bool.false_eq_true,
        if_false]
      rw [if_pos hpos]

theorem idw_weighting_spec_witness :
    0 < IDW_POWER ∧ idwWeight IDW_POWER 0 = 0 :=
  ⟨by decide,
    (idw_weighting_spec [some 10, some 20] [0, 5] IDW_POWER (by decide)
      (by norm_num)).2.2.1⟩

lemma filter_valid_eq_nil_iff :
    ∀ (values : List (Option ℚ)) (distances : List ℚ),
      values.length = distances.length →
      (((values.zip distances).filter fun q => is_valid_value q.1) = [] ↔
        ∀ w ∈ values, is_valid_value w = false) := by
  intro values
  induction values with
  | nil =>
    intro distances _
    simp
  | cons v vt ih =>
    intro distances hlen
    cases distances with
    | nil => simp at hlen
    | cons d dt =>
      have hlen' : vt.length = dt.length := by simpa using hlen
      by_cases hv : is_valid_value v
      · simp [List.filter_cons, hv]
      · simp only [List.zip_cons_cons, List.filter_cons, List.mem_cons]
        simp only [Bool.not_eq_true] at hv
        simp [hv, ih dt hlen']

/-- C5: the aggregator excludes, before weighting, every value that is
missing (`none`, the model of `NaN`/`None`) or equal to the `-9999`
sentinel: prepending an invalid entry never changes the result, and the
result is the missing marker `none` (never an exception) exactly when no
valid value remains. -/
theorem idw_invalid_exclusion (p : ℕ) (v : Option ℚ) (d : ℚ)
    (values : List (Option ℚ)) (distances : List ℚ)
    (hv : is_valid_value v = false) (hlen : values.length = distances.length) :
    is_valid_value none = false ∧
    is_valid_value (some INVALID_SENTINEL) = false ∧
    inverse_distance_weighting (v :: values) (d :: distances) p =
      inverse_distance_weighting values distances p ∧
    (inverse_distance_weighting values distances p = none ↔
      ∀ w ∈ values, is_valid_value w = false) := by
  refine ⟨rfl, ?_, ?_, ?_⟩
  · simp [is_valid_value]
  · simp only [inverse_distance_weighting, List.zip_cons_cons, List.filter_cons, hv,
      Bool.false_eq_true, if_false]
  · rw [← filter_valid_eq_nil_iff values distances hlen]
    constructor
    · intro hnone
      by_contra hne
      have hempty : ((values.zip distances).filter fun q => is_valid_value q.1).isEmpty
          = false := by
        simp [List.isEmpty_iff, hne]
      simp only [inverse_distance_weighting, hempty, Bool.false_eq_true, if_false] at hnone
      split at hnone <;> simp at hnone
    · intro hnil
      simp only [inverse_distance_weighting, hnil]
      rfl

theorem idw_invalid_exclusion_witness :
    is_valid_value (some INVALID_SENTINEL) = false ∧
    inverse_distance_weighting [some INVALID_SENTINEL, some 10] [1, 2] IDW_POWER =
      inverse_distance_weighting [some 10] [2] IDW_POWER :=
  ⟨(idw_invalid_exclusion IDW_POWER (some INVALID_SENTINEL) 1 [some 10] [2]
      (by simp [is_valid_value]) rfl).2.1,
   (idw_invalid_exclusion IDW_POWER (some INVALID_SENTINEL) 1 [some 10] [2]
      (by simp [is_valid_value]) rfl).2.2.1⟩

/-- C6: for every metric, with both the treatment value and the background
estimate valid, `AC = treatment - background` and
`RC = (AC / (|treatment| + |background|)) * 100`, `RC` being undefined when
the denominator is zero; both are undefined when either operand is invalid;
every defined `RC` lies in `[-200, 200]`; and treatment `10` with
background `0` yields `AC = 10`, `RC = 100`. -/
theorem impact_scores_spec :
    (∀ r b : ℚ, is_valid_value (some r) = true → is_valid_value (some b) = true →
      (impactScores (some r) (some b)).1 = some (r - b) ∧
      (|b| + |r| = 0 → (impactScores (some r) (some b)).2 = none) ∧
      (|b| + |r| ≠ 0 →
        (impactScores (some r) (some b)).2 = some ((r - b) / (|b| + |r|) * 100))) ∧
    (∀ road bg : Option ℚ,
      is_valid_value road = false ∨ is_valid_value bg = false →
      impactScores road bg = (none, none)) ∧
    (∀ road bg : Option ℚ, ∀ q : ℚ, (impactScores road bg).2 = some q →
      -200 ≤ q ∧ q ≤ 200) ∧
    impactScores (some 10) (some 0) = (some 10, some 100) := by
  refine ⟨?_, ?_, ?_, ?_⟩
  · intro r b hr hb
    have hc : (is_valid_value (some r) && is_valid_value (some b)) = true := by
      rw [hr, hb]; rfl
    simp only [impactScores, hc, if_true, Option.getD_some]
    refine ⟨trivial, ?_, ?_⟩
    · intro hden
      rw [if_neg (fun h => h hden)]
    · intro hden
      rw [if_pos hden]
  · intro road bg h
    have hc : (is_valid_value road && is_valid_value bg) = false := by
      rcases h with h | h <;> simp [h]
    simp [impactScores, hc]
  · intro road bg q hq
    by_cases hc : (is_valid_value road && is_valid_value bg) = true
    · simp only [impactScores, hc, if_true] at hq
      split at hq
      · rename_i hden
        injection hq with hq
        set r := road.getD 0 with hrdef
        set b := bg.getD 0 with hbdef
        have hd0 : (0 : ℚ) ≤ |b| + |r| := by positivity
        have hdpos : (0 : ℚ) < |b| + |r| := lt_of_le_of_ne hd0 (Ne.symm hden)
        have h1 : |r - b| ≤ |b| + |r| := by
          rw [sub_eq_add_neg, add_comm |b| |r|]
          calc |r + -b| ≤ |r| + |-b| := abs_add r (-b)
            _ = |r| + |b| := by rw [abs_neg]
        have hq100 : |q| ≤ 100 := by
          rw [← hq, abs_mul, abs_div, abs_of_pos hdpos]
          have hdiv : |r - b| / (|b| + |r|) ≤ 1 := (div_le_one hdpos).mpr h1
          calc |r - b| / (|b| + |r|) * |(100 : ℚ)|
              = |r - b| / (|b| + |r|) * 100 := by norm_num
            _ ≤ 1 * 100 := by
                apply mul_le_mul_of_nonneg_right hdiv
                norm_num
            _ = 100 := one_mul 100
        obtain ⟨hql, hqr⟩ := abs_le.mp hq100
        exact ⟨by linarith, by linarith⟩
      · exact absurd hq (by simp)
    · rw [Bool.not_eq_true] at hc
      simp [impactScores, hc] at hq
  · norm_num [impactScores, is_valid_value, INVALID_SENTINEL]

theorem impact_scores_spec_witness :
    is_valid_value (some (10 : ℚ)) = true ∧
    (impactScores (some 10) (some 0)).1 = some (10 - 0) :=
  ⟨by norm_num [is_valid_value, INVALID_SENTINEL],
   (impact_scores_spec.1 10 0 (by norm_num [is_valid_value, INVALID_SENTINEL])
      (by norm_num [is_valid_value, INVALID_SENTINEL])).1⟩

/-- C7: for every tracked base variable, with both AC values valid,
`AC_trend = AC_2020 - AC_2000` and
`RC_trend = (AC_trend / (|AC_2000| + |AC_2020|)) * 100`, the latter being
undefined when the denominator `|AC_2000| + |AC_2020|` is zero; if either
AC value is undefined then both trends are undefined. -/
theorem temporal_trend_spec :
    (∀ a0 a2 : ℚ, is_valid_value (some a0) = true → is_valid_value (some a2) = true →
      (temporal_trend (some a0) (some a2)).1 = some (a2 - a0) ∧
      (|a0| + |a2| = 0 → (temporal_trend (some a0) (some a2)).2 = none) ∧
      (|a0| + |a2| ≠ 0 →
        (temporal_trend (some a0) (some a2)).2 = some ((a2 - a0) / (|a0| + |a2|) * 100))) ∧
    (∀ x y : Option ℚ, is_valid_value x = false ∨ is_valid_value y = false →
      temporal_trend x y = (none, none)) := by
  constructor
  · intro a0 a2 h0 h2
    have hc : (is_valid_value (some a2) && is_valid_value (some a0)) = true := by
      rw [h0, h2]; rfl
    simp only [temporal_trend, hc, if_true, Option.getD_some]
    refine ⟨trivial, ?_, ?_⟩
    · intro hden
      rw [if_neg]
      rw [hden]
      exact lt_irrefl 0
    · intro hden
      have hd0 : (0 : ℚ) ≤ |a0| + |a2| := by positivity
      rw [if_pos (lt_of_le_of_ne hd0 (Ne.symm hden))]
  · intro x y h
    have hc : (is_valid_value y && is_valid_value x) = false := by
      rcases h with h | h <;> simp [h]
    simp [temporal_trend, hc]

theorem temporal_trend_spec_witness :
    is_valid_value (some (1 : ℚ)) = true ∧
    (temporal_trend (some 1) (some 4)).1 = some (4 - 1) :=
  ⟨by norm_num [is_valid_value, INVALID_SENTINEL],
   (temporal_trend_spec.1 1 4 (by norm_num [is_valid_value, INVALID_SENTINEL])
      (by norm_num [is_valid_value, INVALID_SENTINEL])).1⟩

/-- C8 counterexample: on distances `[1000, 2000, 3000]`, values
`[10, 20, 30]`, exponent `2`, the aggregator returns exactly `660/49 ≈ 13.47`,
which differs from the claimed `13.27` by more than `0.19`, so the claimed
"weighted average approximately equal to 13.27" is false. -/
theorem idw_scenario_not_13_27 :
    inverse_distance_weighting [some 10, some 20, some 30] [1000, 2000, 3000]
      IDW_POWER = some (660 / 49) ∧
    19 / 100 < |(660 / 49 : ℚ) - 1327 / 100| := by
  constructor
  · norm_num [inverse_distance_weighting, idwWeight, is_valid_value,
      INVALID_SENTINEL, List.filter_cons, IDW_POWER]
  · have hval : (660 / 49 : ℚ) - 1327 / 100 = 977 / 4900 := by norm_num
    rw [hval, abs_of_pos (by norm_num)]
    norm_num

/-- C8 (amended): on distances `[1000, 2000, 3000]`, values `[10, 20, 30]`,
exponent `2`, the weights are `1/d^2`, i.e. `[1e-6, 2.5e-7, 1/9e6 ≈ 1.11e-7]`,
and the weighted average is exactly `660/49 ≈ 13.47` (not `13.27`). -/
theorem idw_scenario_exact :
    idwWeight IDW_POWER 1000 = 1 / 1000000 ∧
    idwWeight IDW_POWER 2000 = 1 / 4000000 ∧
    idwWeight IDW_POWER 3000 = 1 / 9000000 ∧
    inverse_distance_weighting [some 10, some 20, some 30] [1000, 2000, 3000]
      IDW_POWER = some (660 / 49) ∧
    |(660 / 49 : ℚ) - 1347 / 100| < 1 / 100 := by
  refine ⟨?_, ?_, ?_, ?_, ?_⟩
  · norm_num [idwWeight, IDW_POWER]
  · norm_num [idwWeight, IDW_POWER]
  · norm_num [idwWeight, IDW_POWER]
  · norm_num [inverse_distance_weighting, idwWeight, is_valid_value,
      INVALID_SENTINEL, List.filter_cons, IDW_POWER]
  · have hval : (660 / 49 : ℚ) - 1347 / 100 = -(3 / 4900) := by norm_num
    rw [hval, abs_neg, abs_of_pos (by norm_num)]
    norm_num

/-- C9: the batch computation is deterministic — two runs over identical
merged input tables (and the fixed configuration constants baked into the
definitions) produce identical result rows and skip records, in identical
order. -/
theorem process_deterministic (m1 m2 : List Row) (h : m1 = m2) :
    process_forest_metrics m1 = process_forest_metrics m2 := by
  rw [h]

theorem process_deterministic_witness :
    process_forest_metrics (exRow :: exPool) = process_forest_metrics (exRow :: exPool) :=
  process_deterministic (exRow :: exPool) (exRow :: exPool) rfl

lemma nTop_five : nTop 5 = 3 := by
  unfold nTop
  norm_num [TOP_PERCENTILE, MIN_REF_POINTS]

lemma referenceSubset_ex :
    referenceSubset exPool exRow = [mkCand 200 0 1, mkCand 300 0 2, mkCand 400 0 3] := by
  rw [referenceSubset, keptCandidates_exPool]
  have hlen : exPool.length = 5 := rfl
  rw [hlen, nTop_five]
  norm_num [cindexRank, exPool, sortByKey, insertByKey, mkCand, exRow]

/-- C10: for every non-skipped treatment point, the reported nearest
reference distance is the minimum over all candidates strictly within the
distance threshold — not over the reference subset used for aggregation;
in the concrete example the nearest in-threshold candidate (squared
distance `10000`) supplies the reported value while being excluded from
the reference subset. -/
theorem nearest_ref_distance_spec :
    (∀ table2 row, (processPoint table2 row).isResult = true →
      outcomeNearestSq (processPoint table2 row) =
        some ((((keptCandidates table2 row).map (sqDist row)).min?).getD 0)) ∧
    outcomeNearestSq (processPoint exPool exRow) = some 10000 ∧
    (10000 : ℚ) ∈ (keptCandidates exPool exRow).map (sqDist exRow) ∧
    (10000 : ℚ) ∉ (referenceSubset exPool exRow).map (sqDist exRow) := by
  refine ⟨?_, ?_, ?_, ?_⟩
  · intro table2 row h
    exact nearestSq_of_result (Nat.not_lt.mpr ((isResult_iff table2 row).mp h))
  · have h3 : ¬ (keptCandidates exPool exRow).length < MIN_REF_POINTS := by
      rw [keptCandidates_exPool]
      decide
    rw [nearestSq_of_result h3, keptCandidates_exPool]
    norm_num [exPool, mkCand, exRow, sqDist, List.min?]
  · rw [keptCandidates_exPool]
    norm_num [exPool, mkCand, exRow, sqDist]
  · rw [referenceSubset_ex]
    norm_num [sqDist, mkCand, exRow]

theorem nearest_ref_distance_spec_witness :
    (processPoint exPool exRow).isResult = true ∧
    outcomeNearestSq (processPoint exPool exRow) =
      some ((((keptCandidates exPool exRow).map (sqDist exRow)).min?).getD 0) :=
  ⟨exPool_isResult, nearest_ref_distance_spec.1 exPool exRow exPool_isResult⟩

end RoadImpact
